import Mathlib

set_option maxHeartbeats 1000000
set_option maxRecDepth 4000

namespace Gql

/-! Shallow embedding of the gql_lsp lexer and recursive-descent parser
    (src/lexer/mod.rs, src/lexer/types.rs, src/parser/mod.rs,
    src/parser/types.rs, src/lsp_types.rs, src/helpers.rs, src/constants.rs).
    Machine integers are modeled as Nat/Int with explicit bounds checks where
    Rust parses into i32.  Recursive loops carry an explicit fuel argument so
    every function is total; fuel exhaustion is a distinct error value that the
    Rust code has no counterpart for (it would simply keep running). -/

/-- Zero-based line and character of a point in the source (src/lsp_types.rs). -/
structure Position where
  line : Nat
  character : Nat
  deriving DecidableEq, Repr

def Position.new (line character : Nat) : Position := ⟨line, character⟩

/-- Source span from start to end position (src/lsp_types.rs).  The Rust field
    named end is a Lean keyword, hence the quoted identifier. -/
structure Range where
  start : Position
  «end» : Position
  deriving DecidableEq, Repr

def Range.new (s e : Position) : Range := ⟨s, e⟩

/-- Diagnostic severity (src/lsp_types.rs). -/
inductive DiagnosticSeverity where
  | Error
  | Warning
  | Information
  | Hint
  deriving DecidableEq, Repr

/-- A severity, message and range, produced on every lexer/parser failure
    (src/lsp_types.rs). -/
structure Diagnostic where
  range : Range
  severity : DiagnosticSeverity
  message : String
  deriving DecidableEq, Repr

def Diagnostic.new (severity : DiagnosticSeverity) (message : String) (range : Range) :
    Diagnostic :=
  ⟨range, severity, message⟩

/-- Error outcome of running the embedded lexer/parser: either a returned
    Diagnostic (the Rust Err value), a Rust panic (unwrap on None,
    unreachable match arm), or exhaustion of the fuel the embedding adds to
    make recursion total. -/
inductive RunErr where
  | diag (d : Diagnostic)
  | panicked (msg : String)
  | fuelOut
  deriving DecidableEq, Repr

-- Constants from src/constants.rs.

def NEW_LINE : Char := '\n'

def CARRIAGE_RETURN : Char := '\r'

def SPACE : Char := ' '

def TAB : Char := '\t'

def BOM : Char := '\uFEFF'

/-- Helper from src/helpers.rs. -/
def is_line_terminator (c : Char) : Bool :=
  c == NEW_LINE || c == CARRIAGE_RETURN

/-- Helper from src/helpers.rs.  Rust uses char::is_alphabetic (Unicode); the
    strings this is applied to are Name tokens produced by the lexer, which are
    ASCII letters/digits/underscore, on which Char.isAlpha agrees. -/
def is_valid_name (value : String) : Bool :=
  match value.toList with
  | [] => false
  | first :: rest =>
    (first.isAlpha || first == '_') &&
      rest.all (fun c => c.isAlpha || c.isDigit || c == '_')

/-- The fourteen GraphQL punctuators (src/lexer/types.rs). -/
inductive Punctuator where
  | ExclamationMark
  | DollarSign
  | Ampersand
  | LeftParenthesis
  | RightParenthesis
  | Ellipsis
  | Colon
  | EqualSign
  | AtSign
  | LeftBracket
  | RightBracket
  | LeftBrace
  | RightBrace
  | VerticalBar
  deriving DecidableEq, Repr

/-- char_to_punctuator from src/lexer/types.rs; the Rust catch-all arm panics,
    modeled as the panicked error value. -/
def char_to_punctuator (c : Char) : Except RunErr Punctuator :=
  if c = '!' then .ok .ExclamationMark
  else if c = '$' then .ok .DollarSign
  else if c = '&' then .ok .Ampersand
  else if c = '(' then .ok .LeftParenthesis
  else if c = ')' then .ok .RightParenthesis
  else if c = '.' then .ok .Ellipsis
  else if c = ':' then .ok .Colon
  else if c = '=' then .ok .EqualSign
  else if c = '@' then .ok .AtSign
  else if c = '[' then .ok .LeftBracket
  else if c = ']' then .ok .RightBracket
  else if c = '{' then .ok .LeftBrace
  else if c = '}' then .ok .RightBrace
  else if c = '|' then .ok .VerticalBar
  else .error (.panicked ("Invalid punctuator"))

/-- Stands in for the f32 payload of FloatValue tokens: the sign and the digit
    strings handed to the Rust f32 parse.  IEEE rounding is not modeled; no
    verified property depends on float payloads, and f32 parsing cannot fail on
    this digit shape (the Rust Err arm there is dead code). -/
structure FloatLit where
  neg : Bool
  intPart : String
  fracPart : String
  deriving DecidableEq, Repr

/-- Token payloads (src/lexer/types.rs).  IntValue is Rust i32, modeled as Int
    produced through parse_i32 with explicit bounds. -/
inductive LexicalTokenType where
  | Punctuator (p : Punctuator)
  | Name (s : String)
  | IntValue (v : Int)
  | FloatValue (v : FloatLit)
  | StringValue (s : String)
  | EOF
  deriving DecidableEq, Repr

/-- A token together with its source range (src/lexer/types.rs). -/
structure LexicalToken where
  token_type : LexicalTokenType
  position : Range
  deriving DecidableEq, Repr

def LexicalToken.new (token_type : LexicalTokenType) (position : Range) : LexicalToken :=
  ⟨token_type, position⟩

/-- Models str::parse::<i32> on an optional minus sign followed by digits:
    fails on an empty or non-digit string and on values outside the i32 range,
    succeeds with the decimal value otherwise. -/
def parse_i32 (neg : Bool) (digits : String) : Option Int :=
  match digits.toList with
  | [] => none
  | cs =>
    if cs.all (fun c => c.isDigit) then
      let n : Nat := cs.foldl (fun acc c => acc * 10 + (c.toNat - 48)) 0
      let v : Int := if neg then -(n : Int) else (n : Int)
      if -2147483648 ≤ v ∧ v ≤ 2147483647 then some v else none
    else none

/-- Lexer cursor state (the ptr/character/line fields of struct Lexer in
    src/lexer/mod.rs); the source text is passed separately since it is never
    mutated. -/
structure LexState where
  ptr : Nat
  character : Nat
  line : Nat
  deriving DecidableEq, Repr

namespace Lexer

/-- Lexer::peek. -/
def peek (source : List Char) (st : LexState) : Option Char :=
  source[st.ptr]?

/-- Lexer::next: returns the current char and advances ptr and character. -/
def next (source : List Char) (st : LexState) : Option Char × LexState :=
  (peek source st, { st with ptr := st.ptr + 1, character := st.character + 1 })

/-- Lexer::expect_peek: checks the current character without consuming it. -/
def expect_peek (source : List Char) (expected : Char) (st : LexState) :
    Except RunErr Char :=
  match peek source st with
  | some c =>
    if c = expected then .ok c
    else
      .error (.diag (Diagnostic.new .Error
        ("Expected \"" ++ expected.toString ++ "\", found \"" ++ c.toString ++ "\"")
        (Range.new (Position.new st.line st.character)
          (Position.new st.line (st.character + 1)))))
  | none =>
    .error (.diag (Diagnostic.new .Error
      ("Expected \"" ++ expected.toString ++ "\", found EOF")
      (Range.new (Position.new st.line st.character)
        (Position.new st.line (st.character + 1)))))

/-- Lexer::expect_next: consumes one character and checks it; the error range
    uses the position after advancing, as in the Rust code. -/
def expect_next (source : List Char) (expected : Char) (st : LexState) :
    Except RunErr (Char × LexState) :=
  let (n, st1) := next source st
  match n with
  | some c =>
    if c = expected then .ok (c, st1)
    else
      .error (.diag (Diagnostic.new .Error
        ("Expected \"" ++ expected.toString ++ "\", found \"" ++ c.toString ++ "\"")
        (Range.new (Position.new st1.line st1.character)
          (Position.new st1.line (st1.character + 1)))))
  | none =>
    .error (.diag (Diagnostic.new .Error
      ("Expected \"" ++ expected.toString ++ "\", found EOF")
      (Range.new (Position.new st1.line st1.character)
        (Position.new st1.line (st1.character + 1)))))

/-- Lexer::consume_while.  The line/character adjustment happens after the
    advance, exactly as in the Rust loop body.  Fuel bounds the iteration
    count; callers pass source.length + 1, which exceeds the characters left. -/
def consume_while (source : List Char) (cond : Char → Bool) :
    Nat → LexState → String → String × LexState
  | 0, st, acc => (acc, st)
  | fuel + 1, st, acc =>
    match peek source st with
    | some c =>
      if cond c then
        let st1 := (next source st).2
        let st2 :=
          if c == NEW_LINE || c == CARRIAGE_RETURN then
            { st1 with character := 0, line := st1.line + 1 }
          else st1
        consume_while source cond fuel st2 (acc.push c)
      else (acc, st)
    | none => (acc, st)

/-- Lexer::ignore_while: same stepping as consume_while, discarding output. -/
def ignore_while (source : List Char) (cond : Char → Bool) :
    Nat → LexState → LexState
  | 0, st => st
  | fuel + 1, st =>
    match peek source st with
    | some c =>
      if cond c then
        let st1 := (next source st).2
        let st2 :=
          if c == NEW_LINE || c == CARRIAGE_RETURN then
            { st1 with character := 0, line := st1.line + 1 }
          else st1
        ignore_while source cond fuel st2
      else st
    | none => st

/-- The while-let loop of Lexer::tokenize_string, after the opening quote has
    been consumed. -/
def tokenize_string_loop (source : List Char) (start_position : Position) :
    Nat → LexState → String → Except RunErr (LexicalToken × LexState)
  | 0, _, _ => .error .fuelOut
  | fuel + 1, st, result =>
    match peek source st with
    | some c =>
      if c = '"' then
        let st1 := (next source st).2
        .ok (LexicalToken.new (.StringValue result)
          (Range.new start_position (Position.new st1.line st1.character)), st1)
      else if c = '\\' then
        let st1 := (next source st).2
        match peek source st1 with
        | some 'n' =>
          tokenize_string_loop source start_position fuel ((next source st1).2)
            (result.push '\n')
        | some 'r' =>
          tokenize_string_loop source start_position fuel ((next source st1).2)
            (result.push '\r')
        | some 't' =>
          tokenize_string_loop source start_position fuel ((next source st1).2)
            (result.push '\t')
        | some '\\' =>
          tokenize_string_loop source start_position fuel ((next source st1).2)
            (result.push '\\')
        | some '"' =>
          tokenize_string_loop source start_position fuel ((next source st1).2)
            (result.push '"')
        | _ =>
          .error (.diag (Diagnostic.new .Error
            ("Invalid character escape sequence.")
            (Range.new (Position.new st1.line st1.character)
              (Position.new st1.line (st1.character + 1)))))
      else if c = '\n' ∨ c = '\r' then
        .error (.diag (Diagnostic.new .Error ("Unterminated string.")
          (Range.new (Position.new st.line st.character)
            (Position.new st.line (st.character + 1)))))
      else
        tokenize_string_loop source start_position fuel ((next source st).2)
          (result.push c)
    | none =>
      .error (.diag (Diagnostic.new .Error ("Unterminated string.")
        (Range.new (Position.new st.line st.character)
          (Position.new st.line (st.character + 1)))))

/-- Lexer::tokenize_string. -/
def tokenize_string (source : List Char) (fuel : Nat) (st : LexState) :
    Except RunErr (LexicalToken × LexState) :=
  let start_position := Position.new st.line st.character
  match expect_next source '"' st with
  | .error e => .error e
  | .ok (_, st1) => tokenize_string_loop source start_position fuel st1 ""

/-- Lexer::tokenize_number.  Note that the token ranges are computed from the
    cursor position after the digits were consumed, exactly as in the Rust
    code. -/
def tokenize_number (source : List Char) (st : LexState) :
    Except RunErr (LexicalToken × LexState) :=
  let (sign, st1) :=
    if peek source st = some '-' then (true, (next source st).2) else (false, st)
  let (number_value, st2) :=
    consume_while source (fun c => c.isDigit) (source.length + 1) st1 ""
  if number_value = "" then
    .error (.diag (Diagnostic.new .Error ("Invalid number, expected digit")
      (Range.new (Position.new st2.line st2.character)
        (Position.new st2.line (st2.character + 1)))))
  else
    match peek source st2 with
    | some '.' =>
      let st3 := (next source st2).2
      let (decimal_value, st4) :=
        consume_while source (fun c => c.isDigit) (source.length + 1) st3 ""
      if decimal_value = "" then
        .error (.diag (Diagnostic.new .Error ("Invalid number, expected digit")
          (Range.new (Position.new st4.line st4.character)
            (Position.new st4.line (st4.character + 1)))))
      else
        .ok (LexicalToken.new (.FloatValue ⟨sign, number_value, decimal_value⟩)
          (Range.new (Position.new st4.line st4.character)
            (Position.new st4.line
              (st4.character + number_value.length + decimal_value.length))), st4)
    | _ =>
      match parse_i32 sign number_value with
      | some v =>
        .ok (LexicalToken.new (.IntValue v)
          (Range.new (Position.new st2.line st2.character)
            (Position.new st2.line (st2.character + number_value.length))), st2)
      | none =>
        .error (.diag (Diagnostic.new .Error ("Invalid number")
          (Range.new (Position.new st2.line st2.character)
            (Position.new st2.line (st2.character + 1)))))

/-- The main scan loop of Lexer::lex, one fuel unit per iteration; every
    iteration that recurses consumes at least one character, so the
    source.length + 1 fuel passed by lex never runs out. -/
def lex_loop (source : List Char) : Nat → LexState → List LexicalToken →
    Except RunErr (List LexicalToken)
  | 0, _, _ => .error .fuelOut
  | fuel + 1, st, tokens =>
    match peek source st with
    | none =>
      .ok (tokens ++ [LexicalToken.new .EOF
        (Range.new (Position.new st.line st.character)
          (Position.new st.line st.character))])
    | some c =>
      if c = SPACE ∨ c = TAB ∨ c = BOM ∨ c = ',' then
        lex_loop source fuel ((next source st).2) tokens
      else if c = NEW_LINE ∨ c = CARRIAGE_RETURN then
        let stA := { st with line := st.line + 1 }
        let stB := (next source stA).2
        lex_loop source fuel ({ stB with character := 0 }) tokens
      else if c = '#' then
        lex_loop source fuel
          (ignore_while source (fun ch => !(is_line_terminator ch))
            (source.length + 1) st) tokens
      else if c = '!' ∨ c = '$' ∨ c = '&' ∨ c = '(' ∨ c = ')' ∨ c = ':' ∨ c = '='
          ∨ c = '@' ∨ c = '[' ∨ c = ']' ∨ c = '{' ∨ c = '}' ∨ c = '|' then
        match char_to_punctuator c with
        | .error e => .error e
        | .ok punctuator =>
          let character := st.character
          let st1 := (next source st).2
          lex_loop source fuel st1 (tokens ++ [LexicalToken.new (.Punctuator punctuator)
            (Range.new (Position.new st1.line character)
              (Position.new st1.line st1.character))])
      else if c = '.' then
        let start_position := Position.new st.line st.character
        let st1 := (next source st).2
        match expect_peek source '.' st1 with
        | .error e => .error e
        | .ok _ =>
          let st2 := (next source st1).2
          match expect_peek source '.' st2 with
          | .error e => .error e
          | .ok _ =>
            let st3 := (next source st2).2
            lex_loop source fuel st3 (tokens ++ [LexicalToken.new
              (.Punctuator .Ellipsis)
              (Range.new start_position (Position.new st3.line st3.character))])
      else if c = '"' then
        match tokenize_string source (source.length + 1) st with
        | .error e => .error e
        | .ok (t, st1) => lex_loop source fuel st1 (tokens ++ [t])
      else if c = '-' then
        match tokenize_number source st with
        | .error e => .error e
        | .ok (t, st1) => lex_loop source fuel st1 (tokens ++ [t])
      else
        let character := st.character
        let line := st.line
        if c.isDigit then
          match tokenize_number source st with
          | .error e => .error e
          | .ok (t, st1) => lex_loop source fuel st1 (tokens ++ [t])
        else if c.isAlpha ∨ c = '_' then
          let (value, st1) :=
            consume_while source (fun ch => ch.isAlphanum || ch == '_')
              (source.length + 1) st ""
          lex_loop source fuel st1 (tokens ++ [LexicalToken.new (.Name value)
            (Range.new (Position.new line character)
              (Position.new st1.line st1.character))])
        else
          .error (.diag (Diagnostic.new .Error
            ("Unexpected character: " ++ c.toString)
            (Range.new (Position.new line character)
              (Position.new st.line st.character))))

/-- Lexer::lex on a character list, starting from the zeroed cursor. -/
def lex_chars (source : List Char) : Except RunErr (List LexicalToken) :=
  lex_loop source (source.length + 1) ⟨0, 0, 0⟩ []

/-- The crate-level lex entry point (fn lex in src/lexer/mod.rs). -/
def lex (source : String) : Except RunErr (List LexicalToken) :=
  lex_chars source.toList

end Lexer

-- AST node types from src/parser/types.rs.

/-- Operation kind (src/parser/types.rs). -/
inductive OperationType where
  | Query
  | Mutation
  | Subscription
  deriving DecidableEq, Repr

/-- OperationType::parse from src/parser/types.rs. -/
def OperationType.parse (value : String) : Option OperationType :=
  if value = "query" then some .Query
  else if value = "mutation" then some .Mutation
  else if value = "subscription" then some .Subscription
  else none

/-- A name with its source range (src/parser/types.rs). -/
structure Name where
  value : String
  position : Range
  deriving DecidableEq, Repr

structure Variable where
  name : Name
  position : Range
  deriving DecidableEq, Repr

structure IntValue where
  value : Int
  position : Range
  deriving DecidableEq, Repr

structure FloatValue where
  value : FloatLit
  position : Range
  deriving DecidableEq, Repr

structure StringValue where
  value : String
  block : Bool
  position : Range
  deriving DecidableEq, Repr

structure BooleanValue where
  value : Bool
  position : Range
  deriving DecidableEq, Repr

structure NullValue where
  position : Range
  deriving DecidableEq, Repr

structure EnumValue where
  value : String
  position : Range
  deriving DecidableEq, Repr

mutual

/-- Value (src/parser/types.rs): the recursive GraphQL input-value tree. -/
inductive Value where
  | Variable (v : Variable)
  | IntValue (v : IntValue)
  | FloatValue (v : FloatValue)
  | StringValue (v : StringValue)
  | BooleanValue (v : BooleanValue)
  | NullValue (v : NullValue)
  | EnumValue (v : EnumValue)
  | ListValue (v : ListValue)
  | ObjectValue (v : ObjectValue)

/-- ListValue (src/parser/types.rs). -/
inductive ListValue where
  | mk (values : List Value) (position : Range)

/-- ObjectValue (src/parser/types.rs). -/
inductive ObjectValue where
  | mk (fields : List ObjectField) (position : Range)

/-- ObjectField (src/parser/types.rs). -/
inductive ObjectField where
  | mk (name : Name) (value : Value) (position : Range)

end

structure Argument where
  name : Name
  value : Value
  position : Range

/-- Directive (src/parser/types.rs); field order follows the Rust struct. -/
structure Directive where
  name : Name
  position : Range
  arguments : List Argument

structure NamedType where
  name : Name
  position : Range
  deriving DecidableEq, Repr

mutual

/-- Type (src/parser/types.rs), renamed GqlType because Type is a Lean
    keyword; the three recursive type-reference forms. -/
inductive GqlType where
  | NamedType (t : NamedType)
  | ListType (t : ListType)
  | NonNullType (t : NonNullType)

/-- ListType (src/parser/types.rs); Box indirection is implicit in Lean. -/
inductive ListType where
  | mk (wrapped_type : GqlType) (position : Range)

/-- NonNullType (src/parser/types.rs). -/
inductive NonNullType where
  | mk (wrapped_type : GqlType) (position : Range)

end

def ListType.wrapped_type : ListType → GqlType
  | .mk t _ => t

def ListType.position : ListType → Range
  | .mk _ p => p

def NonNullType.wrapped_type : NonNullType → GqlType
  | .mk t _ => t

def NonNullType.position : NonNullType → Range
  | .mk _ p => p

/-- The source range carried by a type node, whichever variant it is. -/
def GqlType.position : GqlType → Range
  | .NamedType t => t.position
  | .ListType t => t.position
  | .NonNullType t => t.position

structure VariableDefinition where
  «variable» : Variable
  variable_type : GqlType
  default_value : Option Value
  position : Range

structure FragmentSpread where
  name : Name
  directives : List Directive
  position : Range

mutual

/-- Selection (src/parser/types.rs). -/
inductive Selection where
  | Field (f : Field)
  | FragmentSpread (f : FragmentSpread)
  | InlineFragment (f : InlineFragment)

/-- Field (src/parser/types.rs); field order follows the Rust struct. -/
inductive Field where
  | mk («alias» : Option Name) (name : Name) (arguments : List Argument)
      (directives : List Directive) (selection_set : Option SelectionSet)
      (position : Range)

/-- InlineFragment (src/parser/types.rs). -/
inductive InlineFragment where
  | mk (type_condition : Option NamedType) (directives : List Directive)
      (selection_set : SelectionSet) (position : Range)

/-- SelectionSet (src/parser/types.rs). -/
inductive SelectionSet where
  | mk (selections : List Selection) (position : Range)

end

def Field.«alias» : Field → Option Name
  | .mk a _ _ _ _ _ => a

def Field.name : Field → Name
  | .mk _ n _ _ _ _ => n

def Field.arguments : Field → List Argument
  | .mk _ _ a _ _ _ => a

def Field.directives : Field → List Directive
  | .mk _ _ _ d _ _ => d

def Field.selection_set : Field → Option SelectionSet
  | .mk _ _ _ _ s _ => s

def Field.position : Field → Range
  | .mk _ _ _ _ _ p => p

def SelectionSet.selections : SelectionSet → List Selection
  | .mk s _ => s

def SelectionSet.position : SelectionSet → Range
  | .mk _ p => p

/-- OperationDefinition (src/parser/types.rs); field order as in Rust. -/
structure OperationDefinition where
  name : Option Name
  operation : OperationType
  variable_definitions : List VariableDefinition
  selection_set : SelectionSet
  directives : List Directive
  position : Range
  anonymous : Bool

structure FragmentDefinition where
  name : Name
  type_condition : NamedType
  directives : List Directive
  selection_set : SelectionSet
  position : Range

structure RootOperationTypeDefinition where
  operation_type : OperationType
  named_type : NamedType
  position : Range

structure SchemaDefinition where
  description : Option StringValue
  operation_types : List RootOperationTypeDefinition
  directives : List Directive
  position : Range

structure ScalarTypeDefinition where
  description : Option StringValue
  name : Name
  directives : List Directive
  position : Range

structure InputValueDefinition where
  description : Option StringValue
  name : Name
  input_type : GqlType
  default_value : Option Value
  directives : List Directive
  position : Range

structure FieldDefinition where
  description : Option StringValue
  name : Name
  arguments : List InputValueDefinition
  field_type : GqlType
  directives : List Directive
  position : Range

structure ObjectTypeDefinition where
  description : Option StringValue
  name : Name
  interfaces : List NamedType
  directives : List Directive
  fields : List FieldDefinition
  position : Range

structure InterfaceTypeDefinition where
  description : Option StringValue
  name : Name
  interfaces : List NamedType
  directives : List Directive
  fields : List FieldDefinition
  position : Range

structure UnionTypeDefinition where
  description : Option StringValue
  name : Name
  directives : List Directive
  member_types : List NamedType
  position : Range

structure EnumValueDefinition where
  description : Option StringValue
  name : Name
  directives : List Directive
  position : Range

structure EnumTypeDefinition where
  description : Option StringValue
  name : Name
  directives : List Directive
  values : List EnumValueDefinition
  position : Range

structure InputObjectTypeDefinition where
  description : Option StringValue
  name : Name
  directives : List Directive
  fields : List InputValueDefinition
  position : Range

/-- Definition (src/parser/types.rs): the tagged union of top-level forms. -/
inductive Definition where
  | OperationDefinition (d : OperationDefinition)
  | FragmentDefinition (d : FragmentDefinition)
  | SchemaDefinition (d : SchemaDefinition)
  | ScalarTypeDefinition (d : ScalarTypeDefinition)
  | ObjectTypeDefinition (d : ObjectTypeDefinition)
  | InterfaceTypeDefinition (d : InterfaceTypeDefinition)
  | UnionTypeDefinition (d : UnionTypeDefinition)
  | EnumTypeDefinition (d : EnumTypeDefinition)
  | InputObjectTypeDefinition (d : InputObjectTypeDefinition)

/-- Document (src/parser/types.rs): the root AST node. -/
structure Document where
  definitions : List Definition
  position : Range

/-- Parser cursor over the immutable token buffer (struct Parser in
    src/parser/mod.rs). -/
structure PState where
  tokens : List LexicalToken
  ptr : Nat
  deriving DecidableEq, Repr

namespace Parser

/-- Parser::get_current_position.  The none branch carries the literal Rust
    match-arm value; in Rust that branch would actually recurse forever (peek
    constructs its error with get_current_position again), but it is
    unreachable because the lexer terminates every buffer with an EOF token
    that the parser never consumes. -/
def get_current_position (st : PState) : Range :=
  match st.tokens[st.ptr]? with
  | some token => token.position
  | none => Range.new (Position.new 0 0) (Position.new 0 0)

/-- Parser::peek. -/
def peek (st : PState) : Except RunErr LexicalToken :=
  match st.tokens[st.ptr]? with
  | some token => .ok token
  | none =>
    .error (.diag (Diagnostic.new .Error ("Unexpected EOF") (get_current_position st)))

/-- Parser::peek_safe. -/
def peek_safe (st : PState) : LexicalToken :=
  match st.tokens[st.ptr]? with
  | some token => token
  | none => { token_type := .EOF, position := get_current_position st }

/-- Parser::next. -/
def next (st : PState) : PState :=
  { st with ptr := st.ptr + 1 }

/-- Rendering of punctuators as in the Rust derive Debug output, used only
    inside expect_next messages. -/
def debug_punctuator : Punctuator → String
  | .ExclamationMark => "ExclamationMark"
  | .DollarSign => "DollarSign"
  | .Ampersand => "Ampersand"
  | .LeftParenthesis => "LeftParenthesis"
  | .RightParenthesis => "RightParenthesis"
  | .Ellipsis => "Ellipsis"
  | .Colon => "Colon"
  | .EqualSign => "EqualSign"
  | .AtSign => "AtSign"
  | .LeftBracket => "LeftBracket"
  | .RightBracket => "RightBracket"
  | .LeftBrace => "LeftBrace"
  | .RightBrace => "RightBrace"
  | .VerticalBar => "VerticalBar"

/-- Rendering of token types for expect_next messages.  The exact spacing and
    quoting of the Rust derive Debug output is approximated; no verified
    property inspects these messages. -/
def debug_token_type : LexicalTokenType → String
  | .Punctuator p => "Punctuator(" ++ debug_punctuator p ++ ")"
  | .Name s => "Name(" ++ s ++ ")"
  | .IntValue v => "IntValue(" ++ toString v ++ ")"
  | .FloatValue v =>
    "FloatValue(" ++ (if v.neg then "-" else "") ++ v.intPart ++ "." ++ v.fracPart ++ ")"
  | .StringValue s => "StringValue(" ++ s ++ ")"
  | .EOF => "EOF"

/-- Rendering of a whole token for expect_next messages; same caveat as
    debug_token_type. -/
def debug_token (t : LexicalToken) : String :=
  "LexicalToken(" ++ debug_token_type t.token_type ++ ", " ++
    toString t.position.start.line ++ ":" ++ toString t.position.start.character ++ "-" ++
    toString t.position.«end».line ++ ":" ++ toString t.position.«end».character ++ ")"

/-- Parser::expect_next. -/
def expect_next (st : PState) (token_type : LexicalTokenType) : Except RunErr PState := do
  let token ← peek st
  if token.token_type = token_type then
    .ok (next st)
  else
    .error (.diag (Diagnostic.new .Error
      ("Unexpected token. Expected " ++ debug_token_type token_type ++ ", found "
        ++ debug_token token)
      (get_current_position st)))

/-- Parser::parse_description: consume a leading StringValue token if present. -/
def parse_description (st : PState) : Option StringValue × PState :=
  let token := peek_safe st
  match token.token_type with
  | .StringValue value =>
    (some { value := value, block := false, position := token.position }, next st)
  | _ => (none, st)

/-- Parser::parse_name_maybe. -/
def parse_name_maybe (st : PState) : Except RunErr (Option Name × PState) := do
  let position := get_current_position st
  let token ← peek st
  match token.token_type with
  | .Name name =>
    if is_valid_name name then
      .ok (some { value := name, position := position }, next st)
    else
      .error (.diag (Diagnostic.new .Error ("Invalid name") position))
  | _ => .ok (none, st)

/-- Parser::parse_name. -/
def parse_name (st : PState) : Except RunErr (Name × PState) := do
  let (maybe_name, st1) ← parse_name_maybe st
  match maybe_name with
  | some name => .ok (name, st1)
  | none =>
    .error (.diag (Diagnostic.new .Error ("Expected Name") (get_current_position st1)))

/-- Parser::parse_named_type. -/
def parse_named_type (st : PState) : Except RunErr (NamedType × PState) := do
  let start_position := get_current_position st
  let (name, st1) ← parse_name st
  .ok ({ name := name,
         position := Range.new start_position.start (get_current_position st1).«end» }, st1)

/-- Parser::parse_type_condition. -/
def parse_type_condition (st : PState) : Except RunErr (NamedType × PState) := do
  let start_position := get_current_position st
  let st1 ← expect_next st (.Name ("on"))
  let (name, st2) ← parse_name st1
  .ok ({ name := name,
         position := Range.new start_position.start (get_current_position st2).«end» }, st2)

/-- Parser::wrap_if_non_null.  Note that the start position is captured from
    the current token, i.e. at the exclamation mark, after the wrapped type has
    already been consumed. -/
def wrap_if_non_null (wrapped_type : GqlType) (st : PState) :
    Except RunErr (GqlType × PState) := do
  let start_position := get_current_position st
  let token ← peek st
  if token.token_type ≠ .Punctuator .ExclamationMark then
    .ok (wrapped_type, st)
  else
    let st1 := next st
    let end_position := get_current_position st1
    .ok (.NonNullType (.mk wrapped_type
      (Range.new start_position.start end_position.«end»)), st1)

mutual

/-- Parser::parse_type. -/
def parse_type : Nat → PState → Except RunErr (GqlType × PState)
  | 0, _ => .error .fuelOut
  | fuel + 1, st => do
    let token ← peek st
    let start_position := token.position
    if token.token_type = .Punctuator .LeftBracket then
      let (list_type, st1) ← parse_list_type fuel st
      wrap_if_non_null list_type st1
    else
      let (name_type, st1) ← parse_name st
      let named : NamedType :=
        { name := name_type,
          position := Range.new start_position.start (get_current_position st1).«end» }
      wrap_if_non_null (.NamedType named) st1

/-- Parser::parse_list_type. -/
def parse_list_type : Nat → PState → Except RunErr (GqlType × PState)
  | 0, _ => .error .fuelOut
  | fuel + 1, st => do
    let start_position := get_current_position st
    let st1 := next st
    let (wrapped_type, st2) ← parse_type fuel st1
    let token ← peek st2
    if token.token_type ≠ .Punctuator .RightBracket then
      .error (.diag (Diagnostic.new .Error ("Expected \"]\"") token.position))
    else
      let st3 := next st2
      let end_position := get_current_position st3
      .ok (.ListType (.mk wrapped_type
        (Range.new start_position.start end_position.«end»)), st3)

end

mutual

/-- Parser::parse_value.  The bare-Name fallthrough arm returns an EnumValue
    without consuming the token, exactly as the Rust code does. -/
def parse_value : Nat → PState → Except RunErr (Value × PState)
  | 0, _ => .error .fuelOut
  | fuel + 1, st => do
    let token ← peek st
    let position := token.position
    match token.token_type with
    | .IntValue value => .ok (.IntValue { value := value, position := position }, next st)
    | .FloatValue value => .ok (.FloatValue { value := value, position := position }, next st)
    | .StringValue value =>
      .ok (.StringValue { value := value, block := false, position := position }, next st)
    | .Name name =>
      if name = "true" then
        .ok (.BooleanValue { value := true, position := position }, next st)
      else if name = "false" then
        .ok (.BooleanValue { value := false, position := position }, next st)
      else if name = "null" then
        .ok (.NullValue { position := position }, next st)
      else
        .ok (.EnumValue { value := name, position := position }, st)
    | .Punctuator .LeftBracket => parse_list_value fuel st
    | .Punctuator .LeftBrace => parse_object_value fuel st
    | .Punctuator .DollarSign =>
      let st1 := next st
      let (name, st2) ← parse_name st1
      .ok (.Variable { name := name, position := position }, st2)
    | _ => .error (.diag (Diagnostic.new .Error ("Expected Value") position))

/-- The loop inside Parser::parse_list_value. -/
def parse_list_value_loop : Nat → PState → List Value →
    Except RunErr (List Value × PState)
  | 0, _, _ => .error .fuelOut
  | fuel + 1, st, values => do
    let token ← peek st
    if token.token_type = .Punctuator .RightBracket then
      .ok (values, next st)
    else
      let (value, st1) ← parse_value fuel st
      parse_list_value_loop fuel st1 (values ++ [value])

/-- Parser::parse_list_value. -/
def parse_list_value : Nat → PState → Except RunErr (Value × PState)
  | 0, _ => .error .fuelOut
  | fuel + 1, st => do
    let start_position := get_current_position st
    let st1 := next st
    let (values, st2) ← parse_list_value_loop fuel st1 []
    let end_position := get_current_position st2
    .ok (.ListValue (.mk values (Range.new start_position.start end_position.«end»)), st2)

/-- The while loop inside Parser::parse_object_value; as in the Rust code the
    closing brace is left unconsumed. -/
def parse_object_value_loop : Nat → PState → List ObjectField →
    Except RunErr (List ObjectField × PState)
  | 0, _, _ => .error .fuelOut
  | fuel + 1, st, fields => do
    let token ← peek st
    if token.token_type ≠ .Punctuator .RightBrace then
      let (field, st1) ← parse_object_field fuel st
      parse_object_value_loop fuel st1 (fields ++ [field])
    else
      .ok (fields, st)

/-- Parser::parse_object_value. -/
def parse_object_value : Nat → PState → Except RunErr (Value × PState)
  | 0, _ => .error .fuelOut
  | fuel + 1, st => do
    let start_position := get_current_position st
    let st1 := next st
    let (object_fields, st2) ← parse_object_value_loop fuel st1 []
    let end_position := get_current_position st2
    .ok (.ObjectValue (.mk object_fields
      (Range.new start_position.start end_position.«end»)), st2)

/-- Parser::parse_object_field. -/
def parse_object_field : Nat → PState → Except RunErr (ObjectField × PState)
  | 0, _ => .error .fuelOut
  | fuel + 1, st => do
    let start_position := get_current_position st
    let (name, st1) ← parse_name st
    let st2 ← expect_next st1 (.Punctuator .Colon)
    let (value, st3) ← parse_value fuel st2
    .ok (.mk name value
      (Range.new start_position.start (get_current_position st3).«end»), st3)

end

/-- Parser::parse_argument. -/
def parse_argument (fuel : Nat) (st : PState) : Except RunErr (Argument × PState) := do
  let start_position := get_current_position st
  let (name, st1) ← parse_name st
  let st2 ← expect_next st1 (.Punctuator .Colon)
  let (value, st3) ← parse_value fuel st2
  .ok ({ name := name, value := value,
         position := Range.new start_position.start (get_current_position st3).«end» }, st3)

/-- The loop inside Parser::parse_arguments. -/
def parse_arguments_loop : Nat → PState → List Argument →
    Except RunErr (List Argument × PState)
  | 0, _, _ => .error .fuelOut
  | fuel + 1, st, arguments => do
    let token ← peek st
    if token.token_type = .Punctuator .RightParenthesis then
      .ok (arguments, next st)
    else
      let (argument, st1) ← parse_argument fuel st
      parse_arguments_loop fuel st1 (arguments ++ [argument])

/-- Parser::parse_arguments. -/
def parse_arguments (fuel : Nat) (st : PState) :
    Except RunErr (List Argument × PState) := do
  let token ← peek st
  if token.token_type ≠ .Punctuator .LeftParenthesis then
    .ok ([], st)
  else
    parse_arguments_loop fuel (next st) []

/-- The loop inside Parser::parse_directives. -/
def parse_directives_loop : Nat → PState → List Directive →
    Except RunErr (List Directive × PState)
  | 0, _, _ => .error .fuelOut
  | fuel + 1, st, directives => do
    let token ← peek st
    if token.token_type ≠ .Punctuator .AtSign then
      .ok (directives, st)
    else
      let start_position := get_current_position st
      let st1 := next st
      let (name, st2) ← parse_name st1
      let (arguments, st3) ← parse_arguments fuel st2
      let directive : Directive :=
        { name := name,
          position := Range.new start_position.start (get_current_position st3).«end»,
          arguments := arguments }
      parse_directives_loop fuel st3 (directives ++ [directive])

/-- Parser::parse_directives. -/
def parse_directives (fuel : Nat) (st : PState) :
    Except RunErr (List Directive × PState) :=
  parse_directives_loop fuel st []

/-- Parser::parse_fragment_spread. -/
def parse_fragment_spread (fuel : Nat) (st : PState) :
    Except RunErr (FragmentSpread × PState) := do
  let position := get_current_position st
  let (name, st1) ← parse_name st
  let (directives, st2) ← parse_directives fuel st1
  .ok ({ name := name, directives := directives,
         position := Range.new position.start (get_current_position st2).«end» }, st2)

mutual

/-- The loop inside Parser::parse_selection_set; position is the range of the
    opening brace captured at entry. -/
def parse_selection_set_loop : Nat → Range → PState → List Selection →
    Except RunErr (SelectionSet × PState)
  | 0, _, _, _ => .error .fuelOut
  | fuel + 1, position, st, selections => do
    let token ← peek st
    if token.token_type = .Punctuator .RightBrace then
      let st1 := next st
      .ok (.mk selections (Range.new position.start (get_current_position st1).«end»), st1)
    else
      let (selection, st1) ← parse_selection fuel st
      parse_selection_set_loop fuel position st1 (selections ++ [selection])

/-- Parser::parse_selection_set. -/
def parse_selection_set : Nat → PState → Except RunErr (SelectionSet × PState)
  | 0, _ => .error .fuelOut
  | fuel + 1, st => do
    let position := get_current_position st
    let st1 ← expect_next st (.Punctuator .LeftBrace)
    parse_selection_set_loop fuel position st1 []

/-- Parser::parse_inline_fragment. -/
def parse_inline_fragment : Nat → PState → Except RunErr (InlineFragment × PState)
  | 0, _ => .error .fuelOut
  | fuel + 1, st => do
    let position := get_current_position st
    let token ← peek st
    let (type_condition, st1) ←
      if token.token_type = .Name ("on") then do
        let (tc, stA) ← parse_type_condition st
        .ok (some tc, stA)
      else
        .ok ((none : Option NamedType), st)
    let (directives, st2) ← parse_directives fuel st1
    let (selection_set, st3) ← parse_selection_set fuel st2
    .ok (.mk type_condition directives selection_set
      (Range.new position.start (get_current_position st3).«end»), st3)

/-- Parser::parse_selection.  The Rust Field arm ends in name.unwrap(), which
    panics when the alias colon is not followed by a name; that panic is
    modeled as the panicked error value. -/
def parse_selection : Nat → PState → Except RunErr (Selection × PState)
  | 0, _ => .error .fuelOut
  | fuel + 1, st => do
    let position := get_current_position st
    let token ← peek st
    match token.token_type with
    | .Punctuator .Ellipsis =>
      let st1 := next st
      let token1 ← peek st1
      match token1.token_type with
      | .Name n =>
        if n = "on" then do
          let (inline_fragment, st2) ← parse_inline_fragment fuel st1
          .ok (.InlineFragment inline_fragment, st2)
        else do
          let (fragment_spread, st2) ← parse_fragment_spread fuel st1
          .ok (.FragmentSpread fragment_spread, st2)
      | _ =>
        .error (.diag (Diagnostic.new .Error
          ("Expected Fragment Spread or Inline Fragment") (get_current_position st1)))
    | .Name _ =>
      let (name0, st1) ← parse_name_maybe st
      let token1 ← peek st1
      let (al, name1, st2) ←
        if token1.token_type = .Punctuator .Colon then do
          let stA := next st1
          let (name2, stB) ← parse_name_maybe stA
          .ok (name0, name2, stB)
        else
          .ok ((none : Option Name), name0, st1)
      let (arguments, st3) ← parse_arguments fuel st2
      let (directives, st4) ← parse_directives fuel st3
      let token2 ← peek st4
      let (selection_set, st5) ←
        if token2.token_type = .Punctuator .LeftBrace then do
          let (ss, stC) ← parse_selection_set fuel st4
          .ok (some ss, stC)
        else
          .ok ((none : Option SelectionSet), st4)
      match name1 with
      | some n =>
        .ok (.Field (.mk al n arguments directives selection_set
          (Range.new position.start (get_current_position st5).«end»)), st5)
      | none => .error (.panicked ("called Option unwrap on a None value"))
    | _ =>
      .error (.diag (Diagnostic.new .Error ("Expected Selection")
        (get_current_position st)))

end

/-- Parser::parse_variable_definition. -/
def parse_variable_definition (fuel : Nat) (st : PState) :
    Except RunErr (VariableDefinition × PState) := do
  let token ← peek st
  let position := token.position
  if token.token_type ≠ .Punctuator .DollarSign then
    .error (.diag (Diagnostic.new .Error ("Expected \"$\"") token.position))
  else
    let st1 := next st
    let (name, st2) ← parse_name st1
    let token1 ← peek st2
    if token1.token_type ≠ .Punctuator .Colon then
      .error (.diag (Diagnostic.new .Error ("Expected \":\"") token1.position))
    else
      let st3 := next st2
      let (variable_type, st4) ← parse_type fuel st3
      let token2 ← peek st4
      let (default_value, st5) ←
        if token2.token_type = .Punctuator .EqualSign then do
          let (v, stA) ← parse_value fuel (next st4)
          .ok (some v, stA)
        else
          .ok ((none : Option Value), st4)
      let var : Variable :=
        { name := name,
          position := Range.new position.start (get_current_position st5).«end» }
      .ok ({ «variable» := var,
             variable_type := variable_type, default_value := default_value,
             position := Range.new position.start (get_current_position st5).«end» }, st5)

/-- The loop inside Parser::parse_variable_definitions. -/
def parse_variable_definitions_loop : Nat → PState → List VariableDefinition →
    Except RunErr (List VariableDefinition × PState)
  | 0, _, _ => .error .fuelOut
  | fuel + 1, st, variable_definitions => do
    let token ← peek st
    if token.token_type = .Punctuator .RightParenthesis then
      .ok (variable_definitions, next st)
    else
      let (vd, st1) ← parse_variable_definition fuel st
      parse_variable_definitions_loop fuel st1 (variable_definitions ++ [vd])

/-- Parser::parse_variable_definitions. -/
def parse_variable_definitions (fuel : Nat) (st : PState) :
    Except RunErr (List VariableDefinition × PState) := do
  let token ← peek st
  if token.token_type ≠ .Punctuator .LeftParenthesis then
    .ok ([], st)
  else
    parse_variable_definitions_loop fuel (next st) []

/-- Parser::parse_operation_definition. -/
def parse_operation_definition (fuel : Nat) (operation_type : OperationType)
    (anonymous : Bool) (st : PState) :
    Except RunErr (OperationDefinition × PState) := do
  let start_position := get_current_position st
  let st1 := if !anonymous then next st else st
  let (name, st2) ← parse_name_maybe st1
  let (variable_definitions, st3) ← parse_variable_definitions fuel st2
  let (directives, st4) ← parse_directives fuel st3
  let (selection_set, st5) ← parse_selection_set fuel st4
  .ok ({ name := name, operation := operation_type,
         variable_definitions := variable_definitions,
         selection_set := selection_set, directives := directives,
         position := Range.new start_position.start (get_current_position st5).«end»,
         anonymous := anonymous }, st5)

/-- Parser::parse_fragment_definition. -/
def parse_fragment_definition (fuel : Nat) (st : PState) :
    Except RunErr (FragmentDefinition × PState) := do
  let start_position := get_current_position st
  let st1 ← expect_next st (.Name ("fragment"))
  let (name, st2) ← parse_name st1
  let (type_condition, st3) ← parse_type_condition st2
  let (directives, st4) ← parse_directives fuel st3
  let (selection_set, st5) ← parse_selection_set fuel st4
  .ok ({ name := name, type_condition := type_condition, directives := directives,
         selection_set := selection_set,
         position := Range.new start_position.start (get_current_position st5).«end» }, st5)

/-- The loop inside Parser::parse_schema_definition; rejects any entry whose
    leading name is not query, mutation or subscription. -/
def parse_schema_definition_loop : Nat → PState → List RootOperationTypeDefinition →
    Except RunErr (List RootOperationTypeDefinition × PState)
  | 0, _, _ => .error .fuelOut
  | fuel + 1, st, operation_types => do
    let token ← peek st
    if token.token_type = .Punctuator .RightBrace then
      .ok (operation_types, next st)
    else
      let start_position := get_current_position st
      let (operation_type_name, st1) ← parse_name st
      match OperationType.parse operation_type_name.value with
      | some operation_type =>
        let st2 ← expect_next st1 (.Punctuator .Colon)
        let (named_type, st3) ← parse_named_type st2
        let rotd : RootOperationTypeDefinition :=
          { operation_type := operation_type, named_type := named_type,
            position := Range.new start_position.start (get_current_position st3).«end» }
        parse_schema_definition_loop fuel st3 (operation_types ++ [rotd])
      | none =>
        .error (.diag (Diagnostic.new .Error ("Expected operation type")
          operation_type_name.position))

/-- Parser::parse_schema_definition. -/
def parse_schema_definition (fuel : Nat) (description : Option StringValue)
    (st : PState) : Except RunErr (SchemaDefinition × PState) := do
  let start_position := get_current_position st
  let st1 ← expect_next st (.Name ("schema"))
  let (directives, st2) ← parse_directives fuel st1
  let st3 ← expect_next st2 (.Punctuator .LeftBrace)
  let (operation_types, st4) ← parse_schema_definition_loop fuel st3 []
  .ok ({ description := description, operation_types := operation_types,
         directives := directives,
         position := Range.new start_position.start (get_current_position st4).«end» }, st4)

/-- Parser::parse_scalar_type_definition. -/
def parse_scalar_type_definition (fuel : Nat) (description : Option StringValue)
    (st : PState) : Except RunErr (ScalarTypeDefinition × PState) := do
  let start_position := get_current_position st
  let st1 ← expect_next st (.Name ("scalar"))
  let (name, st2) ← parse_name st1
  let (directives, st3) ← parse_directives fuel st2
  .ok ({ name := name, description := description, directives := directives,
         position := Range.new start_position.start (get_current_position st3).«end» }, st3)

/-- The loop inside Parser::parse_interfaces. -/
def parse_interfaces_loop : Nat → PState → List NamedType →
    Except RunErr (List NamedType × PState)
  | 0, _, _ => .error .fuelOut
  | fuel + 1, st, interfaces => do
    let (named_type, st1) ← parse_named_type st
    let interfaces1 := interfaces ++ [named_type]
    let token := peek_safe st1
    if token.token_type ≠ .Punctuator .Ampersand then
      .ok (interfaces1, st1)
    else
      parse_interfaces_loop fuel (next st1) interfaces1

/-- Parser::parse_interfaces. -/
def parse_interfaces (fuel : Nat) (st : PState) :
    Except RunErr (List NamedType × PState) := do
  if (peek_safe st).token_type ≠ .Name ("implements") then
    .ok ([], st)
  else
    parse_interfaces_loop fuel (next st) []

/-- Parser::parse_default_value. -/
def parse_default_value (fuel : Nat) (st : PState) :
    Except RunErr (Option Value × PState) := do
  let token := peek_safe st
  if token.token_type ≠ .Punctuator .EqualSign then
    .ok (none, st)
  else
    let (value, st1) ← parse_value fuel (next st)
    .ok (some value, st1)

/-- Parser::parse_input_value_definition. -/
def parse_input_value_definition (fuel : Nat) (st : PState) :
    Except RunErr (InputValueDefinition × PState) := do
  let start_position := get_current_position st
  let (description, st1) := parse_description st
  let (name, st2) ← parse_name st1
  let st3 ← expect_next st2 (.Punctuator .Colon)
  let (input_type, st4) ← parse_type fuel st3
  let (default_value, st5) ← parse_default_value fuel st4
  let (directives, st6) ← parse_directives fuel st5
  .ok ({ description := description, name := name, input_type := input_type,
         default_value := default_value, directives := directives,
         position := Range.new start_position.start (get_current_position st6).«end» }, st6)

/-- The loop inside Parser::parse_field_arguments. -/
def parse_field_arguments_loop : Nat → PState → List InputValueDefinition →
    Except RunErr (List InputValueDefinition × PState)
  | 0, _, _ => .error .fuelOut
  | fuel + 1, st, arguments =>
    let token := peek_safe st
    if token.token_type = .Punctuator .RightParenthesis then
      .ok (arguments, next st)
    else do
      let (argument, st1) ← parse_input_value_definition fuel st
      parse_field_arguments_loop fuel st1 (arguments ++ [argument])

/-- Parser::parse_field_arguments. -/
def parse_field_arguments (fuel : Nat) (st : PState) :
    Except RunErr (List InputValueDefinition × PState) :=
  let token := peek_safe st
  if token.token_type ≠ .Punctuator .LeftParenthesis then
    .ok ([], st)
  else
    parse_field_arguments_loop fuel (next st) []

/-- Parser::parse_field_definition. -/
def parse_field_definition (fuel : Nat) (st : PState) :
    Except RunErr (FieldDefinition × PState) := do
  let start_position := get_current_position st
  let (description, st1) := parse_description st
  let (name, st2) ← parse_name st1
  let (arguments, st3) ← parse_field_arguments fuel st2
  let st4 ← expect_next st3 (.Punctuator .Colon)
  let (field_type, st5) ← parse_type fuel st4
  let (directives, st6) ← parse_directives fuel st5
  .ok ({ description := description, name := name, arguments := arguments,
         field_type := field_type, directives := directives,
         position := Range.new start_position.start (get_current_position st6).«end» }, st6)

/-- The loop inside Parser::parse_fields. -/
def parse_fields_loop : Nat → PState → List FieldDefinition →
    Except RunErr (List FieldDefinition × PState)
  | 0, _, _ => .error .fuelOut
  | fuel + 1, st, fields =>
    let token := peek_safe st
    if token.token_type = .Punctuator .RightBrace then
      .ok (fields, next st)
    else do
      let (field, st1) ← parse_field_definition fuel st
      parse_fields_loop fuel st1 (fields ++ [field])

/-- Parser::parse_fields. -/
def parse_fields (fuel : Nat) (st : PState) :
    Except RunErr (List FieldDefinition × PState) := do
  let st1 ← expect_next st (.Punctuator .LeftBrace)
  parse_fields_loop fuel st1 []

/-- Parser::parse_object_type_definition. -/
def parse_object_type_definition (fuel : Nat) (description : Option StringValue)
    (st : PState) : Except RunErr (ObjectTypeDefinition × PState) := do
  let start_position := get_current_position st
  let st1 ← expect_next st (.Name ("type"))
  let (name, st2) ← parse_name st1
  let (interfaces, st3) ← parse_interfaces fuel st2
  let (directives, st4) ← parse_directives fuel st3
  let (fields, st5) ← parse_fields fuel st4
  .ok ({ name := name, description := description, interfaces := interfaces,
         directives := directives, fields := fields,
         position := Range.new start_position.start (get_current_position st5).«end» }, st5)

/-- Parser::parse_interface_type_definition. -/
def parse_interface_type_definition (fuel : Nat) (description : Option StringValue)
    (st : PState) : Except RunErr (InterfaceTypeDefinition × PState) := do
  let start_position := get_current_position st
  let st1 ← expect_next st (.Name ("interface"))
  let (name, st2) ← parse_name st1
  let (interfaces, st3) ← parse_interfaces fuel st2
  let (directives, st4) ← parse_directives fuel st3
  let (fields, st5) ← parse_fields fuel st4
  .ok ({ name := name, description := description, interfaces := interfaces,
         directives := directives, fields := fields,
         position := Range.new start_position.start (get_current_position st5).«end» }, st5)

/-- The while-let loop inside Parser::parse_union_member_types. -/
def parse_union_member_types_loop : Nat → PState → List NamedType →
    Except RunErr (List NamedType × PState)
  | 0, _, _ => .error .fuelOut
  | fuel + 1, st, member_types =>
    match (peek_safe st).token_type with
    | .Punctuator .VerticalBar => do
      let (named_type, st1) ← parse_named_type (next st)
      parse_union_member_types_loop fuel st1 (member_types ++ [named_type])
    | _ => .ok (member_types, st)

/-- Parser::parse_union_member_types. -/
def parse_union_member_types (fuel : Nat) (st : PState) :
    Except RunErr (List NamedType × PState) := do
  let st1 ← expect_next st (.Punctuator .EqualSign)
  let (first, st2) ← parse_named_type st1
  parse_union_member_types_loop fuel st2 [first]

/-- Parser::parse_union_type_definition. -/
def parse_union_type_definition (fuel : Nat) (description : Option StringValue)
    (st : PState) : Except RunErr (UnionTypeDefinition × PState) := do
  let start_position := get_current_position st
  let st1 ← expect_next st (.Name ("union"))
  let (name, st2) ← parse_name st1
  let (directives, st3) ← parse_directives fuel st2
  let (member_types, st4) ← parse_union_member_types fuel st3
  .ok ({ name := name, description := description, directives := directives,
         member_types := member_types,
         position := Range.new start_position.start (get_current_position st4).«end» }, st4)

/-- Parser::parse_enum_value_definition. -/
def parse_enum_value_definition (fuel : Nat) (st : PState) :
    Except RunErr (EnumValueDefinition × PState) := do
  let start_position := get_current_position st
  let (description, st1) := parse_description st
  let (name, st2) ← parse_name st1
  let (directives, st3) ← parse_directives fuel st2
  .ok ({ description := description, name := name, directives := directives,
         position := Range.new start_position.start (get_current_position st3).«end» }, st3)

/-- The while loop inside Parser::parse_enum_values. -/
def parse_enum_values_loop : Nat → PState → List EnumValueDefinition →
    Except RunErr (List EnumValueDefinition × PState)
  | 0, _, _ => .error .fuelOut
  | fuel + 1, st, values =>
    if (peek_safe st).token_type ≠ .Punctuator .RightBrace then do
      let (value, st1) ← parse_enum_value_definition fuel st
      parse_enum_values_loop fuel st1 (values ++ [value])
    else
      .ok (values, st)

/-- Parser::parse_enum_values: requires at least one value before the loop. -/
def parse_enum_values (fuel : Nat) (st : PState) :
    Except RunErr (List EnumValueDefinition × PState) := do
  let st1 ← expect_next st (.Punctuator .LeftBrace)
  let (first, st2) ← parse_enum_value_definition fuel st1
  let (values, st3) ← parse_enum_values_loop fuel st2 [first]
  let st4 ← expect_next st3 (.Punctuator .RightBrace)
  .ok (values, st4)

/-- Parser::parse_enum_type_definition. -/
def parse_enum_type_definition (fuel : Nat) (description : Option StringValue)
    (st : PState) : Except RunErr (EnumTypeDefinition × PState) := do
  let start_position := get_current_position st
  let st1 ← expect_next st (.Name ("enum"))
  let (name, st2) ← parse_name st1
  let (directives, st3) ← parse_directives fuel st2
  let (values, st4) ← parse_enum_values fuel st3
  .ok ({ name := name, description := description, directives := directives,
         values := values,
         position := Range.new start_position.start (get_current_position st4).«end» }, st4)

/-- The while loop inside Parser::parse_input_fields. -/
def parse_input_fields_loop : Nat → PState → List InputValueDefinition →
    Except RunErr (List InputValueDefinition × PState)
  | 0, _, _ => .error .fuelOut
  | fuel + 1, st, fields =>
    if (peek_safe st).token_type ≠ .Punctuator .RightBrace then do
      let (field, st1) ← parse_input_value_definition fuel st
      parse_input_fields_loop fuel st1 (fields ++ [field])
    else
      .ok (fields, st)

/-- Parser::parse_input_fields. -/
def parse_input_fields (fuel : Nat) (st : PState) :
    Except RunErr (List InputValueDefinition × PState) := do
  let st1 ← expect_next st (.Punctuator .LeftBrace)
  let (fields, st2) ← parse_input_fields_loop fuel st1 []
  let st3 ← expect_next st2 (.Punctuator .RightBrace)
  .ok (fields, st3)

/-- Parser::parse_input_object_type_definition. -/
def parse_input_object_type_definition (fuel : Nat) (description : Option StringValue)
    (st : PState) : Except RunErr (InputObjectTypeDefinition × PState) := do
  let start_position := get_current_position st
  let st1 ← expect_next st (.Name ("input"))
  let (name, st2) ← parse_name st1
  let (directives, st3) ← parse_directives fuel st2
  let (fields, st4) ← parse_input_fields fuel st3
  .ok ({ name := name, description := description, directives := directives,
         fields := fields,
         position := Range.new start_position.start (get_current_position st4).«end» }, st4)

/-- The top-level dispatch loop of Parser::parse_definitions. -/
def parse_definitions : Nat → PState → List Definition →
    Except RunErr (List Definition × PState)
  | 0, _, _ => .error .fuelOut
  | fuel + 1, st, definitions =>
    let token := peek_safe st
    if token.token_type = .EOF then
      .ok (definitions, st)
    else
      let position := get_current_position st
      if token.token_type = .Punctuator .LeftBrace then do
        let (od, st1) ← parse_operation_definition fuel .Query true st
        parse_definitions fuel st1 (definitions ++ [.OperationDefinition od])
      else
        match (match token.token_type with
               | .Name n => OperationType.parse n
               | _ => none) with
        | some operation_type => do
          let (od, st1) ← parse_operation_definition fuel operation_type false st
          parse_definitions fuel st1 (definitions ++ [.OperationDefinition od])
        | none =>
          if token.token_type = .Name ("fragment") then do
            let (fd, st1) ← parse_fragment_definition fuel st
            parse_definitions fuel st1 (definitions ++ [.FragmentDefinition fd])
          else do
            let (description, st1) := parse_description st
            let token1 ← peek st1
            if token1.token_type = .Name ("schema") then do
              let (d, st2) ← parse_schema_definition fuel description st1
              parse_definitions fuel st2 (definitions ++ [.SchemaDefinition d])
            else if token1.token_type = .Name ("scalar") then do
              let (d, st2) ← parse_scalar_type_definition fuel description st1
              parse_definitions fuel st2 (definitions ++ [.ScalarTypeDefinition d])
            else if token1.token_type = .Name ("type") then do
              let (d, st2) ← parse_object_type_definition fuel description st1
              parse_definitions fuel st2 (definitions ++ [.ObjectTypeDefinition d])
            else if token1.token_type = .Name ("interface") then do
              let (d, st2) ← parse_interface_type_definition fuel description st1
              parse_definitions fuel st2 (definitions ++ [.InterfaceTypeDefinition d])
            else if token1.token_type = .Name ("union") then do
              let (d, st2) ← parse_union_type_definition fuel description st1
              parse_definitions fuel st2 (definitions ++ [.UnionTypeDefinition d])
            else if token1.token_type = .Name ("enum") then do
              let (d, st2) ← parse_enum_type_definition fuel description st1
              parse_definitions fuel st2 (definitions ++ [.EnumTypeDefinition d])
            else if token1.token_type = .Name ("input") then do
              let (d, st2) ← parse_input_object_type_definition fuel description st1
              parse_definitions fuel st2 (definitions ++ [.InputObjectTypeDefinition d])
            else
              .error (.diag (Diagnostic.new .Error ("Expected operation definition")
                position))

/-- Parser::parse_document. -/
def parse_document (fuel : Nat) (st : PState) : Except RunErr (Document × PState) := do
  let start_position := get_current_position st
  let (definitions, st1) ← parse_definitions fuel st []
  let end_position := get_current_position st1
  .ok ({ definitions := definitions,
         position := Range.new start_position.start end_position.«end» }, st1)

end Parser

/-- Fuel handed to the parser by the top-level parse entry point.  The Rust
    recursion carries no fuel; this bound is generous for every input
    considered here (call depth and loop iterations are bounded by a small
    multiple of the token count). -/
def parse_fuel (tokens : List LexicalToken) : Nat :=
  16 * (tokens.length + 1)

/-- The crate-level parse entry point (fn parse in src/parser/mod.rs): lex,
    then run the recursive-descent parser from token 0. -/
def parse (source : String) : Except RunErr Document :=
  match Lexer.lex source with
  | .error e => .error e
  | .ok tokens =>
    (Parser.parse_document (parse_fuel tokens) { tokens := tokens, ptr := 0 }).map
      Prod.fst

-- Definitions used only to state the verified properties.

/-- Shape of a type-reference tree with positions erased, used to state what
    a type source parses to. -/
inductive TypeShape where
  | named (s : String)
  | list (t : TypeShape)
  | nonNull (t : TypeShape)
  deriving DecidableEq, Repr

/-- Erase positions from a type tree. -/
def type_shape : GqlType → TypeShape
  | .NamedType nt => .named nt.name.value
  | .ListType (.mk t _) => .list (type_shape t)
  | .NonNullType (.mk t _) => .nonNull (type_shape t)

/-- Lex a type source and run Parser::parse_type on the resulting tokens,
    returning the shape of the parsed type. -/
def parsed_type_shape (source : String) : Except RunErr TypeShape :=
  match Lexer.lex source with
  | .ok ts =>
    match Parser.parse_type 64 { tokens := ts, ptr := 0 } with
    | .ok (t, _) => .ok (type_shape t)
    | .error e => .error e
  | .error e => .error e

/-- Lexicographic (line, character) order on positions, the order the spec
    uses for position monotonicity. -/
def position_le (a b : Position) : Prop :=
  a.line < b.line ∨ (a.line = b.line ∧ a.character ≤ b.character)

instance (a b : Position) : Decidable (position_le a b) := by
  unfold position_le
  infer_instance

/-- The first definition of a parsed document when it is an operation. -/
def operation_head (r : Except RunErr Document) : Option OperationDefinition :=
  match r with
  | .ok d =>
    match d.definitions with
    | .OperationDefinition od :: _ => some od
    | _ => none
  | .error _ => none

/-- The declared type of the first variable definition of the first operation
    of a parsed document. -/
def first_vardef_type (r : Except RunErr Document) : Option GqlType :=
  match operation_head r with
  | some od =>
    match od.variable_definitions with
    | vd :: _ => some vd.variable_type
    | [] => none
  | none => none

/-- The field list of the first definition when it is an object type. -/
def object_fields_head (r : Except RunErr Document) : Option (List FieldDefinition) :=
  match r with
  | .ok d =>
    match d.definitions with
    | .ObjectTypeDefinition td :: _ => some td.fields
    | _ => none
  | .error _ => none

/-- The field list of the first definition when it is an input object type. -/
def input_fields_head (r : Except RunErr Document) : Option (List InputValueDefinition) :=
  match r with
  | .ok d =>
    match d.definitions with
    | .InputObjectTypeDefinition td :: _ => some td.fields
    | _ => none
  | .error _ => none

/-- The characters the lexer consumes without emitting a token: the ignored
    characters of rule 1 together with the line terminators of rule 2. -/
def is_ignored_char (c : Char) : Bool :=
  c == SPACE || c == TAB || c == BOM || c == ',' || c == NEW_LINE || c == CARRIAGE_RETURN

/-- Result of running Parser::parse_type on the token stream of a type source. -/
def parsed_type_result (source : String) : Option GqlType :=
  match Lexer.lex source with
  | .ok ts =>
    match Parser.parse_type 64 { tokens := ts, ptr := 0 } with
    | .ok (t, _) => some t
    | .error _ => none
  | .error _ => none

/-- For a parsed NonNullType, the pair of its own range start and the range
    start of the type it wraps. -/
def nn_starts : Option GqlType → Option (Position × Position)
  | some (.NonNullType (.mk w pos)) => some (pos.start, w.position.start)
  | _ => none

/-- The zero-width EOF token the lexer appends at the final scan position. -/
def eof_token (p : Position) : LexicalToken :=
  LexicalToken.new .EOF (Range.new p p)

/-- The token list Lexer::lex produces for the source braces-only input,
    used to witness the operation-definition invariant at a concrete input. -/
def c4_tokens : List LexicalToken :=
  [LexicalToken.new (.Punctuator .LeftBrace) (Range.new (Position.new 0 0) (Position.new 0 1)),
   LexicalToken.new (.Punctuator .RightBrace) (Range.new (Position.new 0 1) (Position.new 0 2)),
   LexicalToken.new .EOF (Range.new (Position.new 0 2) (Position.new 0 2))]

/-- The opening-brace token of c4_tokens. -/
def c4_brace : LexicalToken :=
  LexicalToken.new (.Punctuator .LeftBrace) (Range.new (Position.new 0 0) (Position.new 0 1))

/-- The operation definition the parser builds from c4_tokens. -/
def c4_od : OperationDefinition :=
  { name := none, operation := .Query, variable_definitions := [],
    selection_set := SelectionSet.mk [] (Range.new (Position.new 0 0) (Position.new 0 2)),
    directives := [],
    position := Range.new (Position.new 0 0) (Position.new 0 2), anonymous := true }

/-- The token list Lexer::lex produces for the one-letter source, used to
    witness the EOF-token property at a concrete input. -/
def c7_tokens : List LexicalToken :=
  [LexicalToken.new (.Name ("a")) (Range.new (Position.new 0 0) (Position.new 0 1)),
   LexicalToken.new .EOF (Range.new (Position.new 0 1) (Position.new 0 1))]

-- Helper lemmas shared by the claim theorems.

theorem ebind_ok {α β : Type} (a : α) (f : α → Except RunErr β) :
    (Except.ok a >>= f) = f a := rfl

theorem ebind_err {α β : Type} (e : RunErr) (f : α → Except RunErr β) :
    ((Except.error e : Except RunErr α) >>= f) = .error e := rfl

theorem tokenize_number_shape (source : List Char) (st : LexState) (t : LexicalToken)
    (st' : LexState) (h : Lexer.tokenize_number source st = .ok (t, st')) :
    (∃ v r, t = LexicalToken.new (.IntValue v) r) ∨
      (∃ f r, t = LexicalToken.new (.FloatValue f) r) := by
  rw [Lexer.tokenize_number] at h
  dsimp only at h
  split at h
  · split at h
    · simp at h
    · split at h
      · split at h
        · simp at h
        · simp only [Except.ok.injEq, Prod.mk.injEq] at h
          exact .inr ⟨_, _, h.1.symm⟩
      · split at h
        · simp only [Except.ok.injEq, Prod.mk.injEq] at h
          exact .inl ⟨_, _, h.1.symm⟩
        · simp at h
  · split at h
    · simp at h
    · split at h
      · split at h
        · simp at h
        · simp only [Except.ok.injEq, Prod.mk.injEq] at h
          exact .inr ⟨_, _, h.1.symm⟩
      · split at h
        · simp only [Except.ok.injEq, Prod.mk.injEq] at h
          exact .inl ⟨_, _, h.1.symm⟩
        · simp at h

theorem tokenize_string_loop_shape (source : List Char) (sp : Position) :
    ∀ fuel st acc t st',
      Lexer.tokenize_string_loop source sp fuel st acc = .ok (t, st') →
      ∃ s r, t = LexicalToken.new (.StringValue s) r := by
  intro fuel
  induction fuel with
  | zero =>
    intro st acc t st' h
    simp [Lexer.tokenize_string_loop] at h
  | succ fuel ih =>
    intro st acc t st' h
    rw [Lexer.tokenize_string_loop] at h
    dsimp only at h
    split at h
    · split at h
      · simp only [Except.ok.injEq, Prod.mk.injEq] at h
        exact ⟨_, _, h.1.symm⟩
      · split at h
        · split at h
          · exact ih _ _ _ _ h
          · exact ih _ _ _ _ h
          · exact ih _ _ _ _ h
          · exact ih _ _ _ _ h
          · exact ih _ _ _ _ h
          · simp at h
        · split at h
          · simp at h
          · exact ih _ _ _ _ h
    · simp at h

theorem tokenize_string_shape (source : List Char) (fuel : Nat) (st : LexState)
    (t : LexicalToken) (st' : LexState)
    (h : Lexer.tokenize_string source fuel st = .ok (t, st')) :
    ∃ s r, t = LexicalToken.new (.StringValue s) r := by
  rw [Lexer.tokenize_string] at h
  split at h
  · simp at h
  · exact tokenize_string_loop_shape source _ fuel _ _ _ _ h

theorem lex_loop_structure (source : List Char) :
    ∀ fuel st tokens res,
      Lexer.lex_loop source fuel st tokens = .ok res →
      ∃ mid p, res = tokens ++ mid ++ [eof_token p] ∧ ∀ t ∈ mid, t.token_type ≠ .EOF := by
  intro fuel
  induction fuel with
  | zero => intro st tokens res h; simp [Lexer.lex_loop] at h
  | succ fuel ih =>
    intro st tokens res h
    have step :
        ∀ (tok : LexicalToken) (st1 : LexState), tok.token_type ≠ .EOF →
          Lexer.lex_loop source fuel st1 (tokens ++ [tok]) = .ok res →
          ∃ mid p, res = tokens ++ mid ++ [eof_token p] ∧ ∀ t ∈ mid, t.token_type ≠ .EOF := by
      intro tok st1 htok hrec
      obtain ⟨mid, p, hres, hmid⟩ := ih _ _ _ hrec
      refine ⟨tok :: mid, p, by simp [hres], ?_⟩
      intro t ht
      rcases List.mem_cons.mp ht with rfl | hmem
      · exact htok
      · exact hmid _ hmem
    rw [Lexer.lex_loop] at h
    dsimp only at h
    split at h
    · simp only [Except.ok.injEq] at h
      refine ⟨[], Position.new st.line st.character, ?_, by simp⟩
      simp [h.symm, eof_token]
    · split at h
      · exact ih _ _ _ h
      · split at h
        · exact ih _ _ _ h
        · split at h
          · exact ih _ _ _ h
          · split at h
            · split at h
              · simp at h
              · exact step _ _ (by simp [LexicalToken.new]) h
            · split at h
              · split at h
                · simp at h
                · split at h
                  · simp at h
                  · exact step _ _ (by simp [LexicalToken.new]) h
              · split at h
                · split at h
                  · simp at h
                  · obtain ⟨s, r, rfl⟩ := tokenize_string_shape source _ _ _ _ (by assumption)
                    exact step _ _ (by simp [LexicalToken.new]) h
                · split at h
                  · split at h
                    · simp at h
                    · rcases tokenize_number_shape source _ _ _ (by assumption) with
                        ⟨v, r, rfl⟩ | ⟨f, r, rfl⟩
                      · exact step _ _ (by simp [LexicalToken.new]) h
                      · exact step _ _ (by simp [LexicalToken.new]) h
                  · split at h
                    · split at h
                      · simp at h
                      · rcases tokenize_number_shape source _ _ _ (by assumption) with
                          ⟨v, r, rfl⟩ | ⟨f, r, rfl⟩
                        · exact step _ _ (by simp [LexicalToken.new]) h
                        · exact step _ _ (by simp [LexicalToken.new]) h
                    · split at h
                      · exact step _ _ (by simp [LexicalToken.new]) h
                      · simp at h

theorem lex_loop_ignored (source : List Char)
    (hsrc : ∀ c ∈ source, is_ignored_char c = true) :
    ∀ fuel st tokens, source.length - st.ptr < fuel →
      ∃ p, Lexer.lex_loop source fuel st tokens = .ok (tokens ++ [eof_token p]) := by
  intro fuel
  induction fuel with
  | zero => intro st tokens hlt; exact absurd hlt (Nat.not_lt_zero _)
  | succ fuel ih =>
    intro st tokens hlt
    rw [Lexer.lex_loop]
    cases hpk : Lexer.peek source st with
    | none =>
      exact ⟨Position.new st.line st.character, rfl⟩
    | some c =>
      have hmem : c ∈ source := by
        have h0 : source[st.ptr]? = some c := hpk
        exact List.getElem?_mem h0
      have hptr : st.ptr < source.length := by
        have h0 : source[st.ptr]? = some c := hpk
        exact (List.getElem?_eq_some.mp h0).1
      have harith : source.length - (st.ptr + 1) < fuel := by omega
      have hc := hsrc c hmem
      simp only [is_ignored_char, Bool.or_eq_true, beq_iff_eq] at hc
      dsimp only
      rcases hc with ((((h1 | h2) | h3) | h4) | h5) | h6
      · obtain ⟨p, hp⟩ := ih { st with ptr := st.ptr + 1, character := st.character + 1 }
          tokens harith
        exact ⟨p, by rw [if_pos (by tauto)]; exact hp⟩
      · obtain ⟨p, hp⟩ := ih { st with ptr := st.ptr + 1, character := st.character + 1 }
          tokens harith
        exact ⟨p, by rw [if_pos (by tauto)]; exact hp⟩
      · obtain ⟨p, hp⟩ := ih { st with ptr := st.ptr + 1, character := st.character + 1 }
          tokens harith
        exact ⟨p, by rw [if_pos (by tauto)]; exact hp⟩
      · obtain ⟨p, hp⟩ := ih { st with ptr := st.ptr + 1, character := st.character + 1 }
          tokens harith
        exact ⟨p, by rw [if_pos (by tauto)]; exact hp⟩
      · subst h5
        obtain ⟨p, hp⟩ := ih { ptr := st.ptr + 1, character := 0, line := st.line + 1 }
          tokens harith
        refine ⟨p, ?_⟩
        rw [if_neg (by simp [SPACE, TAB, BOM, NEW_LINE]), if_pos (by simp [NEW_LINE])]
        exact hp
      · subst h6
        obtain ⟨p, hp⟩ := ih { ptr := st.ptr + 1, character := 0, line := st.line + 1 }
          tokens harith
        refine ⟨p, ?_⟩
        rw [if_neg (by simp [SPACE, TAB, BOM, CARRIAGE_RETURN]),
          if_pos (by simp [CARRIAGE_RETURN])]
        exact hp

theorem parse_ignored (source : List Char)
    (hsrc : ∀ c ∈ source, is_ignored_char c = true) :
    ∃ doc, parse (String.mk source) = .ok doc ∧ doc.definitions = [] := by
  obtain ⟨p, hp⟩ := lex_loop_ignored source hsrc (source.length + 1) ⟨0, 0, 0⟩ [] (by omega)
  have hlex : Lexer.lex (String.mk source) = .ok [eof_token p] := by
    rw [Lexer.lex]
    rw [show (String.mk source).toList = source from rfl]
    rw [Lexer.lex_chars]
    simpa using hp
  refine ⟨{ definitions := [],
            position := Range.new (eof_token p).position.start (eof_token p).position.«end» },
          ?_, rfl⟩
  unfold parse
  rw [hlex]
  dsimp only
  have hfuel : parse_fuel [eof_token p] = 31 + 1 := rfl
  rw [hfuel]
  have hdefs : Parser.parse_definitions (31 + 1) ⟨[eof_token p], 0⟩ [] =
      .ok ([], ⟨[eof_token p], 0⟩) := by
    rw [Parser.parse_definitions]
    rfl
  unfold Parser.parse_document
  rw [hdefs, ebind_ok]
  rfl

theorem tokenize_string_loop_invalid_escape (source : List Char) (sp : Position)
    (fuel : Nat) (st : LexState) (acc : String) (c : Char)
    (hpk : Lexer.peek source st = some '\\')
    (hpk2 : Lexer.peek source ((Lexer.next source st).2) = some c)
    (hn : c ≠ 'n') (hr : c ≠ 'r') (ht : c ≠ 't') (hb : c ≠ '\\') (hq : c ≠ '"') :
    Lexer.tokenize_string_loop source sp (fuel + 1) st acc =
      .error (.diag (Diagnostic.new .Error ("Invalid character escape sequence.")
        (Range.new
          (Position.new (Lexer.next source st).2.line (Lexer.next source st).2.character)
          (Position.new (Lexer.next source st).2.line
            ((Lexer.next source st).2.character + 1))))) := by
  rw [Lexer.tokenize_string_loop]
  rw [hpk]
  dsimp only
  rw [if_neg (by decide), if_pos (by decide)]
  rw [hpk2]
  split
  · simp_all
  · simp_all
  · simp_all
  · simp_all
  · simp_all
  · rfl

theorem lex_chars_invalid_escape (c : Char)
    (hn : c ≠ 'n') (hr : c ≠ 'r') (ht : c ≠ 't') (hb : c ≠ '\\') (hq : c ≠ '"') :
    Lexer.lex_chars ['"', '\\', c] =
      .error (.diag (Diagnostic.new .Error ("Invalid character escape sequence.")
        (Range.new (Position.new 0 2) (Position.new 0 3)))) := by
  have hts : ∀ fuel : Nat,
      Lexer.tokenize_string ['"', '\\', c] (fuel + 1) ⟨0, 0, 0⟩ =
        .error (.diag (Diagnostic.new .Error ("Invalid character escape sequence.")
          (Range.new (Position.new 0 2) (Position.new 0 3)))) := by
    intro fuel
    rw [Lexer.tokenize_string]
    dsimp only
    rw [show Lexer.expect_next ['"', '\\', c] '"' ⟨0, 0, 0⟩ =
      .ok ('"', ⟨1, 1, 0⟩) from rfl]
    exact tokenize_string_loop_invalid_escape _ _ fuel _ _ c rfl rfl hn hr ht hb hq
  rw [Lexer.lex_chars, Lexer.lex_loop]
  rw [show Lexer.peek ['"', '\\', c] ⟨0, 0, 0⟩ = some '"' from rfl]
  dsimp only
  rw [if_neg (by decide), if_neg (by decide), if_neg (by decide), if_neg (by decide),
    if_neg (by decide), if_pos (by decide)]
  rw [hts]

theorem parse_name_maybe_non_name (st : PState) (tok : LexicalToken)
    (hpk : Parser.peek st = .ok tok)
    (htok : ∀ s, tok.token_type ≠ .Name s) :
    Parser.parse_name_maybe st = .ok (none, st) := by
  unfold Parser.parse_name_maybe
  rw [hpk, ebind_ok]
  match hshape : tok.token_type with
  | .Name s => exact absurd hshape (htok s)
  | .Punctuator p => rfl
  | .IntValue v => rfl
  | .FloatValue v => rfl
  | .StringValue s => rfl
  | .EOF => rfl

theorem parse_operation_definition_brace (fuel : Nat) (st : PState) (tok : LexicalToken)
    (hpk : Parser.peek st = .ok tok) (htok : tok.token_type = .Punctuator .LeftBrace)
    (od : OperationDefinition) (st' : PState)
    (h : Parser.parse_operation_definition fuel .Query true st = .ok (od, st')) :
    od.anonymous = true ∧ od.name = none ∧ od.operation = .Query := by
  unfold Parser.parse_operation_definition at h
  dsimp only at h
  rw [if_neg (by simp)] at h
  rw [parse_name_maybe_non_name st tok hpk (by rw [htok]; intro s hs; cases hs),
    ebind_ok] at h
  dsimp only at h
  cases hv : Parser.parse_variable_definitions fuel st with
  | error e => rw [hv, ebind_err] at h; cases h
  | ok p =>
    obtain ⟨vds, st3⟩ := p
    rw [hv, ebind_ok] at h
    cases hd : Parser.parse_directives fuel st3 with
    | error e => rw [hd, ebind_err] at h; cases h
    | ok q =>
      obtain ⟨ds, st4⟩ := q
      rw [hd, ebind_ok] at h
      cases hs : Parser.parse_selection_set fuel st4 with
      | error e => rw [hs, ebind_err] at h; cases h
      | ok r =>
        obtain ⟨ss, st5⟩ := r
        rw [hs, ebind_ok] at h
        simp only [Except.ok.injEq, Prod.mk.injEq] at h
        obtain ⟨hod, _⟩ := h
        subst hod
        exact ⟨rfl, rfl, rfl⟩

theorem parse_operation_definition_keyword (fuel : Nat) (ot : OperationType) (st : PState)
    (od : OperationDefinition) (st' : PState)
    (h : Parser.parse_operation_definition fuel ot false st = .ok (od, st')) :
    od.anonymous = false := by
  unfold Parser.parse_operation_definition at h
  dsimp only at h
  rw [if_pos (by simp)] at h
  cases hn : Parser.parse_name_maybe (Parser.next st) with
  | error e => rw [hn, ebind_err] at h; cases h
  | ok p =>
    obtain ⟨nm, st2⟩ := p
    rw [hn, ebind_ok] at h
    cases hv : Parser.parse_variable_definitions fuel st2 with
    | error e => rw [hv, ebind_err] at h; cases h
    | ok q =>
      obtain ⟨vds, st3⟩ := q
      rw [hv, ebind_ok] at h
      cases hd : Parser.parse_directives fuel st3 with
      | error e => rw [hd, ebind_err] at h; cases h
      | ok r =>
        obtain ⟨ds, st4⟩ := r
        rw [hd, ebind_ok] at h
        cases hs : Parser.parse_selection_set fuel st4 with
        | error e => rw [hs, ebind_err] at h; cases h
        | ok w =>
          obtain ⟨ss, st5⟩ := w
          rw [hs, ebind_ok] at h
          simp only [Except.ok.injEq, Prod.mk.injEq] at h
          obtain ⟨hod, _⟩ := h
          subst hod
          rfl

-- Claim theorems.

/-- Claim C1: the claim states that parse returns Ok or a single Err
    Diagnostic on every input and never terminates abnormally.  The code
    violates this: for the input with an alias colon followed by a non-name
    token, parse_selection reaches name.unwrap() on None and the Rust process
    panics, modeled here as the panicked error value. -/
theorem C1_alias_nonname_panics :
    parse "{ a: 1 }" = .error (.panicked ("called Option unwrap on a None value")) := rfl

/-- Claim C2: the claim states position monotonicity, in particular that a
    NonNullType range start is at or before the start of the type it wraps.
    The code violates this: wrap_if_non_null captures its start position from
    the current token, which is the exclamation mark after the wrapped type,
    so for the type source with a bang the NonNullType starts at character 3
    while its wrapped NamedType starts at character 0, and the required
    lexicographic inequality fails. -/
theorem C2_nonnull_start_after_wrapped_start :
    nn_starts (parsed_type_result "Int!") = some (Position.new 0 3, Position.new 0 0) ∧
    ¬ position_le (Position.new 0 3) (Position.new 0 0) :=
  ⟨by decide, by decide⟩

/-- Claim C3, counterexample: the claim states that lexing the single
    question-mark input yields an error whose range is (0,0) to (0,1); in the
    code the unexpected-character branch never advances the cursor, so no such
    diagnostic with that range is produced. -/
theorem C3_counterexample :
    ¬ ∃ d : Diagnostic, Lexer.lex "?" = .error (.diag d) ∧
      d.range = Range.new (Position.new 0 0) (Position.new 0 1) := by
  rintro ⟨d, hd, hr⟩
  have heval : Lexer.lex "?" = .error (.diag (Diagnostic.new .Error
      ("Unexpected character: ?")
      (Range.new (Position.new 0 0) (Position.new 0 0)))) := rfl
  rw [heval] at hd
  simp only [Except.error.injEq, RunErr.diag.injEq] at hd
  rw [← hd] at hr
  exact absurd hr (by decide)

/-- Claim C3, amended: lexing the single question-mark input yields an error
    Diagnostic with severity Error and the unexpected-character message whose
    range is the zero-width span (0,0) to (0,0). -/
theorem C3_amended_zero_width :
    Lexer.lex "?" = .error (.diag (Diagnostic.new .Error
      ("Unexpected character: ?")
      (Range.new (Position.new 0 0) (Position.new 0 0)))) := rfl

/-- Claim C4: an operation definition is anonymous iff it was parsed from the
    bare brace form.  Concretely the brace-test input parses to an operation
    with anonymous true, operation Query and no name; in general, whenever
    parse_operation_definition is entered from the left-brace dispatch (the
    current token is a left brace and the anonymous flag is set) the result
    has anonymous true and no name, and whenever it is entered from a
    keyword dispatch (anonymous flag clear) the result has anonymous false. -/
theorem C4_anonymous_operation :
    ((operation_head (parse "{ test }")).map
      (fun od => (od.anonymous, od.name, od.operation)) = some (true, none, .Query)) ∧
    (∀ (fuel : Nat) (st : PState) (tok : LexicalToken),
      Parser.peek st = .ok tok → tok.token_type = .Punctuator .LeftBrace →
      ∀ (od : OperationDefinition) (st' : PState),
        Parser.parse_operation_definition fuel .Query true st = .ok (od, st') →
        od.anonymous = true ∧ od.name = none ∧ od.operation = .Query) ∧
    (∀ (fuel : Nat) (ot : OperationType) (st : PState) (od : OperationDefinition)
      (st' : PState),
      Parser.parse_operation_definition fuel ot false st = .ok (od, st') →
      od.anonymous = false) :=
  ⟨rfl, parse_operation_definition_brace, parse_operation_definition_keyword⟩

/-- Witness for C4: the hypotheses of the general part hold at the concrete
    brace-only token stream, and the theorem yields the conclusion there. -/
theorem C4_anonymous_operation_witness :
    (Lexer.lex "{}" = .ok c4_tokens) ∧
    (Parser.peek { tokens := c4_tokens, ptr := 0 } = .ok c4_brace) ∧
    (c4_brace.token_type = .Punctuator .LeftBrace) ∧
    (Parser.parse_operation_definition 8 .Query true { tokens := c4_tokens, ptr := 0 } =
      .ok (c4_od, { tokens := c4_tokens, ptr := 2 })) ∧
    (c4_od.anonymous = true ∧ c4_od.name = none ∧ c4_od.operation = .Query) :=
  ⟨rfl, rfl, rfl, rfl,
    C4_anonymous_operation.2.1 8 { tokens := c4_tokens, ptr := 0 } c4_brace rfl rfl
      c4_od { tokens := c4_tokens, ptr := 2 } rfl⟩

/-- Claim C5: the type source with nested lists and bangs parses to
    ListType(NonNullType(ListType(NonNullType(NamedType Int)))). -/
theorem C5_list_nonnull_composition :
    parsed_type_shape "[[Int!]!]" =
      .ok (.list (.nonNull (.list (.nonNull (.named "Int"))))) := rfl

/-- Claim C6: inside a schema block every entry name must be query, mutation
    or subscription; the foo entry is rejected with an error diagnostic at the
    foo token even though foo is lexically a valid name. -/
theorem C6_schema_rejects_unknown_operation_type :
    parse "schema { query: Query mutation: Mutation subscription: Subscription foo: Foo }" =
      .error (.diag (Diagnostic.new .Error ("Expected operation type")
        (Range.new (Position.new 0 68) (Position.new 0 71)))) := rfl

/-- Claim C7: whenever lex succeeds, the token list is non-empty, its last
    element is an EOF token with a zero-width range, and no other element is
    an EOF token. -/
theorem C7_lex_ends_with_unique_zero_width_eof (source : String)
    (tokens : List LexicalToken) (h : Lexer.lex source = .ok tokens) :
    tokens ≠ [] ∧
    (∃ last, tokens.getLast? = some last ∧ last.token_type = .EOF ∧
      last.position.start = last.position.«end») ∧
    (∀ t ∈ tokens.dropLast, t.token_type ≠ .EOF) := by
  rw [Lexer.lex, Lexer.lex_chars] at h
  obtain ⟨mid, p, rfl, hmid⟩ := lex_loop_structure _ _ _ _ _ h
  refine ⟨by simp, ⟨eof_token p, ?_, rfl, rfl⟩, ?_⟩
  · rw [List.nil_append]
    exact List.getLast?_concat _
  · intro t ht
    rw [List.nil_append, List.dropLast_concat] at ht
    exact hmid t ht

/-- Witness for C7: the one-letter source lexes successfully and the theorem
    yields the EOF-token properties for its token list. -/
theorem C7_lex_eof_witness :
    (Lexer.lex "a" = .ok c7_tokens) ∧
    (c7_tokens ≠ [] ∧
      (∃ last, c7_tokens.getLast? = some last ∧ last.token_type = .EOF ∧
        last.position.start = last.position.«end») ∧
      (∀ t ∈ c7_tokens.dropLast, t.token_type ≠ .EOF)) :=
  ⟨rfl, C7_lex_ends_with_unique_zero_width_eof "a" c7_tokens rfl⟩

/-- Claim C8: escape decoding happens inline during lexing.  Each of the five
    supported escapes is stored as its decoded character in the StringValue
    token, and a backslash followed by any other character makes lex return an
    error diagnostic with the invalid-escape message. -/
theorem C8_escape_decoding :
    ((Lexer.lex "\"a\\nb\"" = .ok
        [LexicalToken.new (.StringValue ("a\nb"))
          (Range.new (Position.new 0 0) (Position.new 0 6)),
         LexicalToken.new .EOF (Range.new (Position.new 0 6) (Position.new 0 6))]) ∧
      (Lexer.lex "\"a\\rb\"" = .ok
        [LexicalToken.new (.StringValue ("a\rb"))
          (Range.new (Position.new 0 0) (Position.new 0 6)),
         LexicalToken.new .EOF (Range.new (Position.new 0 6) (Position.new 0 6))]) ∧
      (Lexer.lex "\"a\\tb\"" = .ok
        [LexicalToken.new (.StringValue ("a\tb"))
          (Range.new (Position.new 0 0) (Position.new 0 6)),
         LexicalToken.new .EOF (Range.new (Position.new 0 6) (Position.new 0 6))]) ∧
      (Lexer.lex "\"a\\\\b\"" = .ok
        [LexicalToken.new (.StringValue ("a\\b"))
          (Range.new (Position.new 0 0) (Position.new 0 6)),
         LexicalToken.new .EOF (Range.new (Position.new 0 6) (Position.new 0 6))]) ∧
      (Lexer.lex "\"a\\\"b\"" = .ok
        [LexicalToken.new (.StringValue ("a\"b"))
          (Range.new (Position.new 0 0) (Position.new 0 6)),
         LexicalToken.new .EOF (Range.new (Position.new 0 6) (Position.new 0 6))])) ∧
    (∀ c : Char, c ≠ 'n' → c ≠ 'r' → c ≠ 't' → c ≠ '\\' → c ≠ '"' →
      Lexer.lex_chars ['"', '\\', c] =
        .error (.diag (Diagnostic.new .Error ("Invalid character escape sequence.")
          (Range.new (Position.new 0 2) (Position.new 0 3))))) :=
  ⟨⟨rfl, rfl, rfl, rfl, rfl⟩, lex_chars_invalid_escape⟩

/-- Witness for C8: the general invalid-escape part applied at the concrete
    escape character q. -/
theorem C8_escape_decoding_witness :
    ('q' ≠ 'n') ∧ ('q' ≠ 'r') ∧ ('q' ≠ 't') ∧ ('q' ≠ '\\') ∧ ('q' ≠ '"') ∧
    Lexer.lex_chars ['"', '\\', 'q'] =
      .error (.diag (Diagnostic.new .Error ("Invalid character escape sequence.")
        (Range.new (Position.new 0 2) (Position.new 0 3)))) :=
  ⟨by decide, by decide, by decide, by decide, by decide,
    C8_escape_decoding.2 'q' (by decide) (by decide) (by decide) (by decide) (by decide)⟩

/-- Claim C9: an enum type definition must contain at least one value, so the
    empty enum body is a parse error, while object and input object type
    definitions with empty brace bodies parse successfully with empty field
    lists. -/
theorem C9_enum_nonempty_object_input_empty :
    (parse "enum E { }" = .error (.diag (Diagnostic.new .Error ("Expected Name")
      (Range.new (Position.new 0 9) (Position.new 0 10))))) ∧
    object_fields_head (parse "type T { }") = some [] ∧
    input_fields_head (parse "input I { }") = some [] :=
  ⟨rfl, rfl, rfl⟩

/-- Claim C10: parsing the empty string succeeds with zero definitions and the
    zero-width document range; any input made only of ignored characters and
    line terminators parses to a document with zero definitions; a
    comment-only input also parses to a document with zero definitions. -/
theorem C10_empty_and_ignored_inputs :
    (parse "" = .ok { definitions := [],
                      position := Range.new (Position.new 0 0) (Position.new 0 0) }) ∧
    (∀ source : List Char, (∀ c ∈ source, is_ignored_char c = true) →
      ∃ doc, parse (String.mk source) = .ok doc ∧ doc.definitions = []) ∧
    (parse "# hi" = .ok { definitions := [],
                          position := Range.new (Position.new 0 4) (Position.new 0 4) }) :=
  ⟨rfl, parse_ignored, rfl⟩

/-- Witness for C10: the general ignored-characters part applied to a concrete
    space, comma and newline input. -/
theorem C10_empty_and_ignored_inputs_witness :
    (∀ c ∈ [' ', ',', '\n'], is_ignored_char c = true) ∧
    (∃ doc, parse (String.mk [' ', ',', '\n']) = .ok doc ∧ doc.definitions = []) :=
  ⟨by decide, C10_empty_and_ignored_inputs.2.1 [' ', ',', '\n'] (by decide)⟩

end Gql
